import Mathlib

/-!
Verification of the netkeiba scraping core (`src/netkeiba_scraping`).

The Python source is shallowly embedded: pure text-normalisation functions
become Lean functions on `String`/`List Char`; Python `float` arithmetic on
decimal strings is modelled exactly over `ℚ` (the spec's numeric claims are
about exact decimal values); fallible conversions (`int(...)`, `float(...)`)
return `Option`; the network is a parameter (`transport`, `discover`)
supplying the data a `requests.get` call would produce; pandas DataFrames
become lists of rows, and parquet files become `Option (List row)` values.
-/

namespace Netkeiba

/-! ## Python string primitives

The built-in `String` operations of Lean walk byte positions and do not
evaluate inside the kernel, so the handful of Python string operations the
scraper uses (`strip`, `split`, `replace`, `in`, slicing) are given
structural implementations over `String.data`.  They are used uniformly in
the embedding below. -/

/-- Python `s.strip()` on a character list. -/
def trimL (l : List Char) : List Char :=
  ((l.dropWhile Char.isWhitespace).reverse.dropWhile Char.isWhitespace).reverse

/-- Python `s.strip()`. -/
def pyStrip (s : String) : String := String.mk (trimL s.data)

/-- `re.split` on a one-character class, and Python `s.split(c)`: split at
every separator character, keeping empty fields. -/
def splitPred (p : Char → Bool) : List Char → List (List Char)
  | [] => [[]]
  | c :: cs =>
    if p c then [] :: splitPred p cs
    else
      match splitPred p cs with
      | [] => [[c]]
      | q :: qs => (c :: q) :: qs

/-- Python `s.split(sep)` for a one-character separator. -/
def pySplit (s : String) (p : Char → Bool) : List String :=
  (splitPred p s.data).map String.mk

/-- The loop of Python `s.replace(old, new)`: replace each non-overlapping
occurrence of `pat`, scanning left to right.  Each step consumes at least
one character, so `l.length` fuel suffices. -/
def replaceFuel (pat repl : List Char) : Nat → List Char → List Char
  | 0, l => l
  | _, [] => []
  | fuel + 1, c :: cs =>
    if pat.isPrefixOf (c :: cs) ∧ pat ≠ [] then
      repl ++ replaceFuel pat repl fuel (cs.drop (pat.length - 1))
    else
      c :: replaceFuel pat repl fuel cs

/-- Python `s.replace(old, new)` (with the non-empty patterns the scraper
uses). -/
def pyReplace (s pat repl : String) : String :=
  String.mk (replaceFuel pat.data repl.data s.data.length s.data)

/-- Python `c in s` for a single character. -/
def pyContains (s : String) (c : Char) : Bool := s.data.contains c

/-- Python `s[:-1]` (the empty string stays empty, as in Python). -/
def pyDropLastChar (s : String) : String :=
  String.mk (s.data.take (s.data.length - 1))

/-! ## Python numeric coercions

`digitsToNat?` models `int(s)` on a string of ASCII decimal digits;
`pyInt` adds Python's surrounding-whitespace stripping and optional sign;
`pyFloat` models `float(s)` on decimal literals (`D`, `D.D`, `.D`, `D.`),
returning the exact rational value.  Unicode digits and `_` digit grouping,
which CPython also accepts, do not occur in the scraped fields and are not
modelled.  A `none` result models a raised `ValueError`. -/

def digitsToNat? (l : List Char) : Option Nat :=
  if l ≠ [] ∧ l.all Char.isDigit then
    some (l.foldl (fun a c => a * 10 + (c.toNat - 48)) 0)
  else none

def pyInt (s : String) : Option Int :=
  match trimL s.data with
  | '-' :: rest => (digitsToNat? rest).map (fun n => -(n : Int))
  | '+' :: rest => (digitsToNat? rest).map (fun n => (n : Int))
  | rest => (digitsToNat? rest).map (fun n => (n : Int))

def pyFloatCore (l : List Char) : Option ℚ :=
  match splitPred (fun c => c == '.') l with
  | [ip] =>
    (digitsToNat? ip).map (fun n => (n : ℚ))
  | [ip, fp] =>
    if (ip ≠ [] ∨ fp ≠ []) ∧ ip.all Char.isDigit ∧ fp.all Char.isDigit then
      some ((ip.foldl (fun a c => a * 10 + (c.toNat - 48)) 0 : ℕ) +
            (fp.foldl (fun a c => a * 10 + (c.toNat - 48)) 0 : ℕ) / (10 : ℚ) ^ fp.length)
    else none
  | _ => none

def pyFloat (s : String) : Option ℚ :=
  match trimL s.data with
  | '-' :: rest => (pyFloatCore rest).map (fun q => -q)
  | '+' :: rest => pyFloatCore rest
  | rest => pyFloatCore rest

/-- Model of the nested `safe_int` helper of `_fetch_race` (`scraper.py`):
`int(x)` with unparseable input resolved to the default `0`. -/
def safe_int (s : String) : Int := (pyInt s).getD 0

/-! ## `parsers.py` -/

/-- `parse_lap` (`parsers.py:4-9`): empty / `"0"` / colon-free input yields
`0.0`; otherwise split on `':'` and return `float(xs[0]) * 60.0 + float(xs[1])`.
A `none` result models the `ValueError` that `float` raises on a malformed
segment. -/
def parse_lap (x : String) : Option ℚ :=
  if x = "" ∨ x = "0" ∨ pyContains x ':' = false then some 0
  else
    match pySplit x (fun c => c == ':') with
    | a :: b :: _ => (pyFloat a).bind (fun m => (pyFloat b).map (fun s => m * 60 + s))
    | _ => none

/-- Separator class of `re.split(r'[.+]', x)` in `parse_margin`. -/
def isSep (c : Char) : Bool := c == '.' || c == '+'

/-- `re.split(r'[.+]', x)` on the character list of `x`: split at every
separator character, keeping empty fields. -/
def splitSeps (l : List Char) : List (List Char) := splitPred isSep l

/-- `float(x[0])` on the leading character of the margin string: a digit
parses to its value, anything else raises (`none`); an empty string raises
an `IndexError` at `x[0]` (`none`). -/
def charDigitVal (c : Char) : Option ℚ :=
  if c.isDigit then some ((c.toNat - 48 : ℕ) : ℚ) else none

/-- One unfolding of `parse_margin` (`parsers.py:12-38`), parameterised by
the function used for the recursive calls on the first two fields of the
split. -/
def parseMarginStep (recur : List Char → Option ℚ) (l : List Char) : Option ℚ :=
  if l = "0".data then some 0
  else if l = "同着".data then some 0
  else if l = "ハナ".data then some (1/16)
  else if l = "アタマ".data then some (1/8)
  else if l = "クビ".data then some (1/4)
  else if l = "1/2".data then some (1/2)
  else if l = "1/4".data then some (1/4)
  else if l = "3/4".data then some (3/4)
  else if l = "大".data then some 11
  else
    match splitSeps l with
    | [_p] =>
      match l with
      | [] => none
      | c :: _ => charDigitVal c
    | p0 :: p1 :: _ => (recur p0).bind (fun a => (recur p1).map (fun b => a + b))
    | [] => none

/-- Fuel-indexed unfolding of `parse_margin`.  Each recursive call is on a
strictly shorter string (a field of the separator split), so `length + 1`
fuel always suffices; `parseMarginFuel_congr` below makes this precise. -/
def parseMarginFuel : Nat → List Char → Option ℚ
  | 0, _ => none
  | fuel + 1, l => parseMarginStep (parseMarginFuel fuel) l

def parseMarginL (l : List Char) : Option ℚ := parseMarginFuel (l.length + 1) l

/-- `parse_margin` (`parsers.py:12-38`).  `none` models a raised exception
(the defensive `float(x[0])` fallback on non-numeric content, a documented
edge case). -/
def parse_margin (x : String) : Option ℚ := parseMarginL x.data

/-! ## `fetch_with_retry` (`scraper.py:26-47`)

The network is a parameter `transport : Nat → TransportResult` giving the
outcome of the `requests.get` call on each 0-based attempt.  The function
returns the response (if any), the number of GET attempts that were made,
and the list of `time.sleep` durations, in order. -/

def MAX_RETRIES : Nat := 3
def RETRY_DELAY : Nat := 5
def RATE_LIMIT_DELAY : Nat := 30

inductive TransportResult where
  /-- HTTP 200 with the given body. -/
  | ok (body : String)
  /-- Any non-200 HTTP status code. -/
  | status (code : Nat)
  /-- `requests.exceptions.ConnectionError` or `Timeout`. -/
  | netError
  /-- Any other `requests.exceptions.RequestException`. -/
  | reqError
deriving DecidableEq

structure FetchedPage where
  body : String
  encoding : String
deriving DecidableEq

/-- The `for attempt in range(max_retries)` loop of `fetch_with_retry`;
`attempt` is the current 0-based index and `remaining` the attempts left. -/
def fetchRetryGo (transport : Nat → TransportResult) :
    Nat → Nat → List Nat → Option FetchedPage × Nat × List Nat
  | attempt, 0, sleeps => (none, attempt, sleeps)
  | attempt, remaining + 1, sleeps =>
    match transport attempt with
    | .ok body => (some ⟨body, "EUC-JP"⟩, attempt + 1, sleeps)
    | .status code =>
      if code = 400 then
        fetchRetryGo transport (attempt + 1) remaining (sleeps ++ [RATE_LIMIT_DELAY])
      else
        fetchRetryGo transport (attempt + 1) remaining (sleeps ++ [RETRY_DELAY])
    | .netError =>
      fetchRetryGo transport (attempt + 1) remaining (sleeps ++ [RETRY_DELAY * (attempt + 1)])
    | .reqError => (none, attempt + 1, sleeps)

def fetch_with_retry (transport : Nat → TransportResult) (max_retries : Nat) :
    Option FetchedPage × Nat × List Nat :=
  fetchRetryGo transport 0 max_retries []

/-! ## Payout parsing (`scraper.py:475-551`)

A table cell is a list of `Node`s: its direct children, each either a `<br>`
tag or a piece of text (a `NavigableString`, or a nested tag contributing
its `get_text()`).  A row is a list of cells, a table a list of rows. -/

inductive Node where
  | br
  | text (s : String)
deriving DecidableEq

/-- `cell.get_text(strip=True)`: concatenation of the stripped text pieces. -/
def getTextStrip (cell : List Node) : String :=
  String.join (cell.map (fun n => match n with | .br => "" | .text s => pyStrip s))

/-- `_split_by_br` (`scraper.py:526-541`): split the cell's children at
`<br>` tags, joining and stripping each run of text pieces; an empty result
falls back to `[cell.get_text(strip=True)]`. -/
def _split_by_br (cell : List Node) : List String :=
  let acc := cell.foldl
    (fun (acc : List String × List String) n =>
      match n with
      | .br => if acc.2 ≠ [] then (acc.1 ++ [pyStrip (String.join acc.2)], []) else (acc.1, acc.2)
      | .text s => (acc.1, acc.2 ++ [s]))
    ([], [])
  let texts := if acc.2 ≠ [] then acc.1 ++ [pyStrip (String.join acc.2)] else acc.1
  if texts ≠ [] then texts else [getTextStrip cell]

/-- `_parse_numbers` (`scraper.py:543-551`): normalise the combination
separators to `-`, split, and keep the parts that are all digits. -/
def _parse_numbers (text : String) : List Nat :=
  let t := pyReplace (pyReplace (pyReplace text "→" "-") " " "-") "－" "-"
  let parts := pySplit t (fun c => c == '-' || c == 'ー')
  parts.foldr
    (fun part acc =>
      let p := pyStrip part
      if p.data ≠ [] ∧ p.data.all Char.isDigit then
        ((digitsToNat? p.data).getD 0) :: acc
      else acc)
    []

/-- `BET_TYPE_MAP` (`scraper.py:49-58`) as a partial map; a `none` result
models a label absent from the dict (the row is skipped). -/
def BET_TYPE_MAP (s : String) : Option String :=
  if s = "単勝" then some "win"
  else if s = "複勝" then some "place"
  else if s = "枠連" then some "bracket_quinella"
  else if s = "馬連" then some "quinella"
  else if s = "ワイド" then some "quinella_place"
  else if s = "馬単" then some "exacta"
  else if s = "三連複" then some "trio"
  else if s = "三連単" then some "trifecta"
  else none

structure PayoutRecord where
  race_id : String
  bet_type : String
  numbers : List Nat
  payout : Int
  popularity : Int
deriving DecidableEq

/-- One `<tr>` of a `pay_table_01` table inside `_parse_payouts`
(`scraper.py:480-522`). -/
def parsePayoutRow (race_id : String) (cells : List (List Node)) : List PayoutRecord :=
  match cells with
  | c0 :: c1 :: c2 :: rest =>
    match BET_TYPE_MAP (getTextStrip c0) with
    | none => []
    | some bet_type =>
      let numbers_list := _split_by_br c1
      let payout_list := _split_by_br c2
      let popularity_list :=
        match rest with
        | c3 :: _ => _split_by_br c3
        | [] => List.replicate numbers_list.length "0"
      numbers_list.enum.foldr
        (fun (inum : Nat × String) acc =>
          let numbers := _parse_numbers inum.2
          if numbers = [] then acc
          else
            let payout_text := pyReplace (pyReplace (payout_list.getD inum.1 "0") "," "") "円" ""
            match pyInt payout_text with
            | none => acc
            | some payout =>
              let pop_text := pyReplace (popularity_list.getD inum.1 "0") "人気" ""
              let popularity := (pyInt pop_text).getD 0
              ⟨race_id, bet_type, numbers, payout, popularity⟩ :: acc)
        []
  | _ => []

/-- `_parse_payouts` (`scraper.py:475-524`): all `pay_table_01` tables, all
rows; rows with fewer than three cells are skipped. -/
def _parse_payouts (tables : List (List (List (List Node)))) (race_id : String) :
    List PayoutRecord :=
  tables.flatMap (fun table => table.flatMap (parsePayoutRow race_id))

/-! ## Weight-cell parsing inside `_fetch_race` (`scraper.py:460-465`)

The `馬体重` cell is a string such as `"480(+4)"`, or a non-string (NaN)
for a missing value, modelled by `none`.  The two `map` lambdas compute
`weight_diff = safe_int(x.split('(')[1][:-1])` and
`weight = safe_int(x.split('(')[0])` when `'(' in x`, else `0`. -/

def parseWeightCell (x : Option String) : Int × Int :=
  match x with
  | some s =>
    if pyContains s '(' then
      (safe_int ((pySplit s (fun c => c == '(')).getD 0 ""),
       safe_int (pyDropLastChar ((pySplit s (fun c => c == '(')).getD 1 "")))
    else (0, 0)
  | none => (0, 0)

/-! ## The Store's merge and `save` (`scraper.py:99-110, 266-284`)

`pd.concat([table] + batches)` appends the accumulated row batches to the
in-memory table.  Durable files are `Option (List row)` (a missing parquet
file is `none`); `save` writes each table only when it is non-empty. -/

def mergeBatches {α : Type} (table : List α) (batches : List (List α)) : List α :=
  table ++ batches.flatten

/-- `set(...)` over a list of identifiers: keep the first occurrence of
each element. -/
def pySet {α : Type} [DecidableEq α] (l : List α) : List α := l.dedup

/-- `sorted(list(race_ids))` at `scraper.py:234`. -/
def sortedRaceIdList (ids : List String) : List String :=
  (pySet ids).mergeSort (fun a b => a ≤ b)

structure StoreTables (α β γ δ : Type) where
  races : List α
  horses : List β
  race_profiles : List γ
  payouts : List δ

structure DiskFiles (α β γ δ : Type) where
  racesFile : Option (List α)
  horsesFile : Option (List β)
  race_profilesFile : Option (List γ)
  payoutsFile : Option (List δ)

/-- `Scraper.save` (`scraper.py:99-110`): each of the four tables is written
to its parquet file only if the in-memory table is non-empty. -/
def save {α β γ δ : Type} (s : StoreTables α β γ δ) (d : DiskFiles α β γ δ) :
    DiskFiles α β γ δ :=
  ⟨if s.races.isEmpty then d.racesFile else some s.races,
   if s.horses.isEmpty then d.horsesFile else some s.horses,
   if s.race_profiles.isEmpty then d.race_profilesFile else some s.race_profiles,
   if s.payouts.isEmpty then d.payoutsFile else some s.payouts⟩

/-! ## The `_update_races` checkpoint loop (`scraper.py:244-284`)

Processing identifier `n` (0-based) appends its parsed rows to the pending
batch list; when `n > 0 and n % 100 == 0` the batches are merged into the
store and the batch list is cleared (the checkpoint `self.save()`).
`rows n = none` models a failed fetch/parse (error logged, nothing
appended).  The races / race_profiles / payouts batch lists are flushed
together at the same indices, so one batch list is modelled; its length is
the number of processed identifiers whose rows are not yet flushed.  The
returned trace lists that length after every loop iteration. -/

def pushRow {α : Type} (o : Option (List α)) (buf : List (List α)) : List (List α) :=
  match o with
  | some rs => buf ++ [rs]
  | none => buf

def racePassGo {α : Type} (rows : Nat → Option (List α)) :
    List Nat → List α → List (List α) → List Nat × List α × List (List α)
  | [], store, buf => ([], store, buf)
  | n :: rest, store, buf =>
    if 0 < n ∧ n % 100 = 0 then
      let r := racePassGo rows rest (mergeBatches store (pushRow (rows n) buf)) []
      (0 :: r.1, r.2)
    else
      let buf1 := pushRow (rows n) buf
      let r := racePassGo rows rest store buf1
      (buf1.length :: r.1, r.2)

/-- The pass over `total` identifiers, with the final flush after the loop
(`scraper.py:278-284`); returns the per-iteration unflushed counts and the
final store contents. -/
def racePass {α : Type} (rows : Nat → Option (List α)) (total : Nat) :
    List Nat × List α :=
  let r := racePassGo rows (List.range total) [] []
  (r.1, mergeBatches r.2.1 r.2.2)

/-! ## `_fetch_valid_race_ids` (`scraper.py:117-208`)

Calendar dates are modelled as day numbers (`Nat`); `discover d` is the
list of race identifiers that `_fetch_race_ids_by_date` scrapes from day
`d`'s race-list page; `fromDate` is `date(from_year, 1, 1)` and `endDate`
is `date.today() - timedelta(days=1)`.  The discovery cache file is
`Option (List CacheRow)` (`none` = no `race_ids_cache.parquet`); a cache
loaded without a `fetched` column is modelled as rows with
`fetched = false`, which is what the repair at `scraper.py:130-131`
produces. -/

structure CacheRow where
  race_id : String
  fetched_date : Nat
  fetched : Bool
deriving DecidableEq

structure EnumResult where
  /-- The returned set of identifiers, as a deduplicated list. -/
  result : List String
  /-- `cache_df` at the end of the run. -/
  cacheAfter : Option (List CacheRow)
  /-- The contents of `race_ids_cache.parquet` at the end of the run. -/
  diskAfter : Option (List CacheRow)
deriving DecidableEq

/-- The inclusive day range `[a, b]` iterated by the
`while current <= fetch_until` loops. -/
def dateRange (a b : Nat) : List Nat :=
  (List.range (b + 1 - a)).map (fun i => a + i)

/-- The rows appended to `new_ids` while scanning days `a..b`
(`scraper.py:159-166, 174-181`): every discovered identifier with its
discovery date and `fetched=False`. -/
def discoverRows (discover : Nat → List String) (a b : Nat) : List CacheRow :=
  (dateRange a b).flatMap (fun d => (discover d).map (fun id => ⟨id, d, false⟩))

/-- First four characters of the identifier as a year
(`cache_df['race_id'].str[:4].astype(int)`); identifiers scraped from
`/race/(\d+)` links are all-digit strings, on which `toNat?` agrees with
Python's `int`. -/
def yearSeg (id : String) : Nat := (digitsToNat? (id.data.take 4)).getD 0

/-- The flag refresh `cache_df['fetched'] = cache_df['race_id'].isin(fetched_ids)`
(`scraper.py:195`). -/
def refreshFetched (cache : List CacheRow) (profileIds : List String) : List CacheRow :=
  cache.map (fun r => ⟨r.race_id, r.fetched_date, profileIds.contains r.race_id⟩)

/-- Cache load / bootstrap (`scraper.py:126-148`): the existing cache file
is loaded, or, when absent but `race_profiles` is non-empty, the cache is
initialised from the profiles (every profile already fetched, dated by its
`start`) and immediately persisted.  Returns `(cache_df, cache file)`. -/
def enumInit (diskCache : Option (List CacheRow)) (profiles : List (String × Nat)) :
    Option (List CacheRow) × Option (List CacheRow) :=
  match diskCache with
  | some c => (some c, some c)
  | none =>
    if profiles.isEmpty then (none, none)
    else
      let c := profiles.map (fun p => (⟨p.1, p.2, true⟩ : CacheRow))
      (some c, some c)

/-- Backfill and forward-fill (`scraper.py:150-190`).  `new_ids` collects
the rows discovered in both loops, but — exactly as in the source — the
merge of `new_ids` into `cache_df` sits inside the forward-fill branch
(`scraper.py:184-190`), so backfill discoveries are kept only when the
forward-fill branch also runs. -/
def enumDiscover (cache0 : Option (List CacheRow)) (discover : Nat → List String)
    (fromDate endDate : Nat) : Option (List CacheRow) :=
  let firstCached : Option Nat := cache0.bind (fun c => (c.map (fun r => r.fetched_date)).min?)
  let lastCached : Option Nat := cache0.bind (fun c => (c.map (fun r => r.fetched_date)).max?)
  let backfillIds : List CacheRow :=
    match firstCached with
    | none => discoverRows discover fromDate endDate
    | some f => if fromDate < f then discoverRows discover fromDate (f - 1) else []
  match lastCached with
  | some l =>
    if l < endDate then
      let new_ids := backfillIds ++ discoverRows discover (l + 1) endDate
      if new_ids.isEmpty then cache0
      else
        match cache0 with
        | some c => some (c ++ new_ids)
        | none => some new_ids
    else cache0
  | none => cache0

/-- Flag refresh and persist (`scraper.py:192-196`): runs only when a cache
exists and `race_profiles` is non-empty.  Returns `(cache_df, cache file)`. -/
def enumRefresh (cache1 : Option (List CacheRow)) (profiles : List (String × Nat))
    (disk0 : Option (List CacheRow)) : Option (List CacheRow) × Option (List CacheRow) :=
  match cache1 with
  | some c =>
    if profiles.isEmpty then (some c, disk0)
    else
      let c2 := refreshFetched c (profiles.map (fun p => p.1))
      (some c2, some c2)
  | none => (none, disk0)

/-- The returned set (`scraper.py:203-208`): identifiers at or after
`from_year` whose `fetched` flag is false; the empty set when no cache
exists. -/
def enumReturn (cache2 : Option (List CacheRow)) (from_year : Nat) : List String :=
  match cache2 with
  | none => []
  | some c =>
    ((c.filter (fun r => decide (from_year ≤ yearSeg r.race_id) && !r.fetched)).map
      (fun r => r.race_id)).dedup

/-- `_fetch_valid_race_ids` (`scraper.py:117-208`): load/bootstrap the
cache, backfill and forward-fill, refresh the fetched flags, and return the
unfetched identifiers at or after the configured start year. -/
def _fetch_valid_race_ids (diskCache : Option (List CacheRow))
    (profiles : List (String × Nat)) (discover : Nat → List String)
    (fromDate endDate : Nat) (from_year : Nat) : EnumResult :=
  let init := enumInit diskCache profiles
  let cache1 := enumDiscover init.1 discover fromDate endDate
  let refreshed := enumRefresh cache1 profiles init.2
  ⟨enumReturn refreshed.1 from_year, refreshed.1, refreshed.2⟩

/-! ## Helper lemmas -/

theorem splitPred_ne_nil (p : Char → Bool) (l : List Char) : splitPred p l ≠ [] := by
  cases l with
  | nil => simp [splitPred]
  | cons c cs =>
    simp only [splitPred]
    split
    · simp
    · split <;> simp

theorem length_le_of_mem_splitPred (p : Char → Bool) :
    ∀ (l : List Char) (q : List Char), q ∈ splitPred p l → q.length ≤ l.length := by
  intro l
  induction l with
  | nil =>
    intro q hq
    simp [splitPred] at hq
    simp [hq]
  | cons c cs ih =>
    intro q hq
    simp only [splitPred] at hq
    by_cases hc : p c
    · rw [if_pos hc] at hq
      rcases List.mem_cons.mp hq with rfl | hq
      · simp
      · exact Nat.le_succ_of_le (ih q hq)
    · rw [if_neg hc] at hq
      rcases hsp : splitPred p cs with _ | ⟨q0, qs⟩
      · exact absurd hsp (splitPred_ne_nil p cs)
      · rw [hsp] at hq
        rcases List.mem_cons.mp hq with rfl | hq
        · have : q0.length ≤ cs.length := ih q0 (hsp ▸ List.mem_cons_self q0 qs)
          simpa using this
        · have : q ∈ splitPred p cs := hsp ▸ List.mem_cons_of_mem q0 hq
          exact Nat.le_succ_of_le (ih q this)

theorem exists_sep_of_two_le_splitPred (p : Char → Bool) :
    ∀ l : List Char, 2 ≤ (splitPred p l).length → ∃ c ∈ l, p c = true := by
  intro l
  induction l with
  | nil => intro h; simp [splitPred] at h
  | cons c cs ih =>
    intro h
    by_cases hc : p c
    · exact ⟨c, List.mem_cons_self c cs, hc⟩
    · simp only [splitPred, if_neg hc] at h
      rcases hsp : splitPred p cs with _ | ⟨q0, qs⟩
      · exact absurd hsp (splitPred_ne_nil p cs)
      · rw [hsp] at h
        simp only [List.length_cons] at h
        have h2 : 2 ≤ (splitPred p cs).length := by
          rw [hsp]; simp; omega
        obtain ⟨d, hd, hpd⟩ := ih h2
        exact ⟨d, List.mem_cons_of_mem c hd, hpd⟩

theorem length_lt_of_mem_splitPred (p : Char → Bool) :
    ∀ (l : List Char) (q : List Char), (∃ c ∈ l, p c = true) → q ∈ splitPred p l →
      q.length < l.length := by
  intro l
  induction l with
  | nil => intro q hsep _; simp at hsep
  | cons c cs ih =>
    intro q hsep hq
    simp only [splitPred] at hq
    by_cases hc : p c
    · rw [if_pos hc] at hq
      rcases List.mem_cons.mp hq with rfl | hq
      · simp
      · have := length_le_of_mem_splitPred p cs q hq
        simp only [List.length_cons]
        omega
    · rw [if_neg hc] at hq
      have hsep' : ∃ d ∈ cs, p d = true := by
        obtain ⟨d, hd, hpd⟩ := hsep
        rcases List.mem_cons.mp hd with rfl | hd
        · exact absurd hpd (by simp [hc])
        · exact ⟨d, hd, hpd⟩
      rcases hsp : splitPred p cs with _ | ⟨q0, qs⟩
      · exact absurd hsp (splitPred_ne_nil p cs)
      · rw [hsp] at hq
        rcases List.mem_cons.mp hq with rfl | hq
        · have : q0.length < cs.length := ih q0 hsep' (hsp ▸ List.mem_cons_self q0 qs)
          simp only [List.length_cons]
          omega
        · have : q ∈ splitPred p cs := hsp ▸ List.mem_cons_of_mem q0 hq
          have := ih q hsep' this
          simp only [List.length_cons]
          omega

theorem parseMarginStep_congr (r1 r2 : List Char → Option ℚ) (l : List Char)
    (h : ∀ q : List Char, q.length < l.length → r1 q = r2 q) :
    parseMarginStep r1 l = parseMarginStep r2 l := by
  simp only [parseMarginStep]
  refine if_congr Iff.rfl rfl ?_
  refine if_congr Iff.rfl rfl ?_
  refine if_congr Iff.rfl rfl ?_
  refine if_congr Iff.rfl rfl ?_
  refine if_congr Iff.rfl rfl ?_
  refine if_congr Iff.rfl rfl ?_
  refine if_congr Iff.rfl rfl ?_
  refine if_congr Iff.rfl rfl ?_
  refine if_congr Iff.rfl rfl ?_
  rcases hsp : splitSeps l with _ | ⟨p0, _ | ⟨p1, ps⟩⟩
  · rfl
  · rfl
  · have hsep : ∃ c ∈ l, isSep c = true :=
      exists_sep_of_two_le_splitPred isSep l
        (by rw [show splitPred isSep l = splitSeps l from rfl, hsp]; simp)
    have h0 : p0.length < l.length :=
      length_lt_of_mem_splitPred isSep l p0 hsep
        (by rw [show splitPred isSep l = splitSeps l from rfl, hsp]
            exact List.mem_cons_self _ _)
    have h1 : p1.length < l.length :=
      length_lt_of_mem_splitPred isSep l p1 hsep
        (by rw [show splitPred isSep l = splitSeps l from rfl, hsp]
            exact List.mem_cons_of_mem _ (List.mem_cons_self _ _))
    show (r1 p0).bind (fun a => (r1 p1).map (fun b => a + b)) =
      (r2 p0).bind (fun a => (r2 p1).map (fun b => a + b))
    rw [h p0 h0, h p1 h1]

theorem parseMarginFuel_congr :
    ∀ (n : Nat) (l : List Char), l.length ≤ n → ∀ f g : Nat,
      l.length < f → l.length < g → parseMarginFuel f l = parseMarginFuel g l := by
  intro n
  induction n with
  | zero =>
    intro l hl f g hf hg
    obtain ⟨f', rfl⟩ : ∃ f', f = f' + 1 := ⟨f - 1, by omega⟩
    obtain ⟨g', rfl⟩ : ∃ g', g = g' + 1 := ⟨g - 1, by omega⟩
    exact parseMarginStep_congr _ _ l (fun q hq => absurd hq (by omega))
  | succ n ih =>
    intro l hl f g hf hg
    obtain ⟨f', rfl⟩ : ∃ f', f = f' + 1 := ⟨f - 1, by omega⟩
    obtain ⟨g', rfl⟩ : ∃ g', g = g' + 1 := ⟨g - 1, by omega⟩
    exact parseMarginStep_congr _ _ l
      (fun q hq => ih q (by omega) f' g' (by omega) (by omega))

theorem pushRow_length_le {α : Type} (o : Option (List α)) (buf : List (List α)) :
    (pushRow o buf).length ≤ buf.length + 1 := by
  cases o <;> simp [pushRow]

theorem racePassGo_buf_le {α : Type} (rows : Nat → Option (List α)) :
    ∀ (k a : Nat) (store : List α) (buf : List (List α)),
      buf.length ≤ (if 0 < a ∧ a % 100 = 0 then 100 else a % 100) →
      ∀ b ∈ (racePassGo rows (List.range' a k) store buf).1, b ≤ 100 := by
  intro k
  induction k with
  | zero =>
    intro a store buf hb b hbmem
    simp [racePassGo] at hbmem
  | succ k ih =>
    intro a store buf hb b hbmem
    rw [List.range'_succ] at hbmem
    by_cases hfl : 0 < a ∧ a % 100 = 0
    · rw [if_pos hfl] at hb
      simp only [racePassGo, if_pos hfl] at hbmem
      rcases List.mem_cons.mp hbmem with rfl | hbmem
      · omega
      · exact ih (a + 1) _ [] (by simp) b hbmem
    · rw [if_neg hfl] at hb
      simp only [racePassGo, if_neg hfl] at hbmem
      have hpl := pushRow_length_le (rows a) buf
      rcases List.mem_cons.mp hbmem with rfl | hbmem
      · omega
      · refine ih (a + 1) store (pushRow (rows a) buf) ?_ b hbmem
        split <;> omega

theorem refreshFetched_spec (c : List CacheRow) (pids : List String) :
    ∀ row ∈ refreshFetched c pids, row.fetched = pids.contains row.race_id := by
  intro row hrow
  simp only [refreshFetched, List.mem_map] at hrow
  obtain ⟨r, _, rfl⟩ := hrow
  rfl

theorem enumInit_fst_isSome (diskCache : Option (List CacheRow))
    (profiles : List (String × Nat)) (hp : profiles ≠ []) :
    ∃ c, (enumInit diskCache profiles).1 = some c := by
  cases diskCache with
  | some c => exact ⟨c, rfl⟩
  | none =>
    refine ⟨profiles.map (fun p => (⟨p.1, p.2, true⟩ : CacheRow)), ?_⟩
    simp [enumInit, hp]

theorem enumDiscover_isSome (c : List CacheRow) (discover : Nat → List String)
    (fromDate endDate : Nat) :
    ∃ c1, enumDiscover (some c) discover fromDate endDate = some c1 := by
  simp only [enumDiscover]
  split
  · split
    · split
      · exact ⟨c, rfl⟩
      · exact ⟨_, rfl⟩
    · exact ⟨c, rfl⟩
  · exact ⟨c, rfl⟩

theorem enumRefresh_of_profiles_ne (c : List CacheRow) (profiles : List (String × Nat))
    (disk0 : Option (List CacheRow)) (hp : profiles ≠ []) :
    enumRefresh (some c) profiles disk0 =
      (some (refreshFetched c (profiles.map (fun p => p.1))),
       some (refreshFetched c (profiles.map (fun p => p.1)))) := by
  simp [enumRefresh, hp]

/-! ## Claim theorems -/

/-- C1: the claim says the identifier enumerator's returned set contains every
discovered identifier with year at or after the start year and a false
fetched-flag, in particular the identifiers discovered by backfill on a fresh
run.  The code merges `new_ids` into the cache only inside the forward-fill
branch (`scraper.py:184-190`), which never runs on a fresh run (no cache means
no `last_cached_date`), so the backfill discoveries are discarded and the
fresh run returns the empty set: here backfill over the single day `0`
discovers `201301010101` (year 2013 ≥ 2013, fetched-flag false), yet the
result is empty. -/
theorem fresh_run_drops_backfill :
    (_fetch_valid_race_ids none [] (fun _ => ["201301010101"]) 0 0 2013).result = [] ∧
    discoverRows (fun _ => ["201301010101"]) 0 0 = [⟨"201301010101", 0, false⟩] ∧
    2013 ≤ yearSeg "201301010101" := by decide

/-- C2 (amended): in `_update_races` the batches are flushed at every loop
index `n` with `n > 0 ∧ n % 100 = 0`, so at every iteration boundary the
number of already-processed identifiers whose rows are not yet flushed is at
most 100 — not 99 as claimed: the first flush only happens after the 101st
identifier, so the first 100 iterations end with up to 100 unflushed
identifiers. -/
theorem race_pass_unflushed_le_100 {α : Type} (rows : Nat → Option (List α)) (total : Nat) :
    ∀ b ∈ (racePass rows total).1, b ≤ 100 := by
  intro b hb
  refine racePassGo_buf_le rows total 0 [] [] (by simp) b ?_
  have h0 : List.range total = List.range' 0 total := List.range_eq_range' total
  simpa [racePass, h0] using hb

/-- Witness for C2: on a one-identifier pass the single boundary has one
unflushed identifier, within the proved bound. -/
theorem race_pass_unflushed_le_100_witness :
    (1 : Nat) ∈ (racePass (fun _ => some [(0 : Nat)]) 1).1 ∧ (1 : Nat) ≤ 100 :=
  ⟨by decide, race_pass_unflushed_le_100 (fun _ => some [(0 : Nat)]) 1 1 (by decide)⟩

/-- Counterexample for C2 as stated: a pass over 100 identifiers (0-based
indices 0..99) never reaches the in-loop flush condition, so after the 100th
identifier 100 processed identifiers are unflushed, refuting the bound 99. -/
theorem race_pass_99_refuted :
    ¬ (∀ b ∈ (racePass (fun _ => some [(0 : Nat)]) 100).1, b ≤ 99) := by decide

/-- C3 (amended): the Store's merge is plain concatenation
(`pd.concat([table] + batches)`) and performs no deduplication — feeding it
two batches for the same race identifier yields duplicate rows (see the
counterexample).  What does hold is: the update pass iterates over
`sorted(list(race_ids))` of a set, which contains no duplicate identifiers,
so within one pass no identifier is processed twice; and the merge is exactly
additive on row counts, so it neither drops nor invents rows for any key. -/
theorem store_merge_spec :
    (∀ ids : List String, (sortedRaceIdList ids).Nodup) ∧
    (∀ (t : List PayoutRecord) (bs : List (List PayoutRecord)) (p : PayoutRecord → Bool),
      (mergeBatches t bs).countP p = t.countP p + (bs.map (fun b => b.countP p)).sum) := by
  constructor
  · intro ids
    exact (List.mergeSort_perm (pySet ids) (fun a b => a ≤ b)).symm.nodup (List.nodup_dedup ids)
  · intro t bs p
    simp [mergeBatches, List.countP_append, List.countP_flatten]

/-- Counterexample for C3 as stated: merging two batches that both carry the
row of race `202301010101` produces two rows for that identifier. -/
theorem store_merge_duplicates :
    2 ≤ (mergeBatches ([] : List PayoutRecord)
        [[⟨"202301010101", "win", [3], 1230, 2⟩], [⟨"202301010101", "win", [3], 1230, 2⟩]]).countP
        (fun r => r.race_id == "202301010101") := by decide

/-- C4: when every attempt raises a transient network error
(`ConnectionError` / `Timeout`), `fetch_with_retry` makes exactly the 3
budgeted GET attempts, sleeps `RETRY_DELAY * (attempt + 1)` — the linearly
increasing backoff 5, 10, 15 — after each failed attempt, and returns `None`
instead of propagating an exception. -/
theorem fetch_with_retry_all_timeouts (transport : Nat → TransportResult)
    (h : ∀ n, n < 3 → transport n = TransportResult.netError) :
    fetch_with_retry transport 3 =
      (none, 3, [RETRY_DELAY * 1, RETRY_DELAY * 2, RETRY_DELAY * 3]) := by
  have h0 := h 0 (by omega)
  have h1 := h 1 (by omega)
  have h2 := h 2 (by omega)
  simp [fetch_with_retry, fetchRetryGo, h0, h1, h2, RETRY_DELAY]

/-- Witness for C4 at the constant all-timeouts transport. -/
theorem fetch_with_retry_all_timeouts_witness :
    fetch_with_retry (fun _ => TransportResult.netError) 3 =
      (none, 3, [RETRY_DELAY * 1, RETRY_DELAY * 2, RETRY_DELAY * 3]) :=
  fetch_with_retry_all_timeouts (fun _ => TransportResult.netError) (fun _ _ => rfl)

/-- C5: a payout row with label cell `単勝`, combination `3`, amount
`1,230円`, popularity `2人気` yields exactly the record
`{bet_type := "win", numbers := [3], payout := 1230, popularity := 2}` —
amount conversion strips `,` and `円` before `int()`; and a sub-result whose
amount fails integer conversion (`abc`) is dropped individually while the
rest of the same row is still parsed. -/
theorem payout_parser_fixture :
    _parse_payouts
        [[[ [Node.text "単勝"], [Node.text "3"], [Node.text "1,230円"],
            [Node.text "2人気"], [Node.text "1"] ]]] "202301010101"
      = [⟨"202301010101", "win", [3], 1230, 2⟩] ∧
    _parse_payouts
        [[[ [Node.text "複勝"], [Node.text "3", Node.br, Node.text "5"],
            [Node.text "abc", Node.br, Node.text "1,230円"],
            [Node.text "1人気", Node.br, Node.text "2人気"] ]]] "202301010101"
      = [⟨"202301010101", "place", [5], 1230, 2⟩] := by decide

/-- C6 (amended): `parse_margin` maps the fixed tokens as claimed
(dead-heat 0, nose 1/16, head 1/8, neck 1/4, 1/2, 1/4, 3/4, large 11), and
for every composite string containing a `.` or `+` separator it returns the
sum of `parse_margin` on the FIRST and SECOND fields of the split on ALL
separators — the part before the first separator and the part between the
first and second separators.  Only when the string has exactly one separator
does the second field coincide with "the part after the first separator" as
the claim states; with two or more separators they differ (see the
counterexample). -/
theorem parse_margin_spec :
    parse_margin "同着" = some 0 ∧
    parse_margin "ハナ" = some (1/16) ∧
    parse_margin "アタマ" = some (1/8) ∧
    parse_margin "クビ" = some (1/4) ∧
    parse_margin "1/2" = some (1/2) ∧
    parse_margin "1/4" = some (1/4) ∧
    parse_margin "3/4" = some (3/4) ∧
    parse_margin "大" = some 11 ∧
    (∀ (x : String) (p0 p1 : List Char) (ps : List (List Char)),
      (∃ c ∈ x.data, isSep c = true) → splitSeps x.data = p0 :: p1 :: ps →
      parse_margin x = (parseMarginL p0).bind (fun a => (parseMarginL p1).map (fun b => a + b))) := by
  refine ⟨rfl, rfl, rfl, rfl, rfl, rfl, rfl, rfl, ?_⟩
  intro x p0 p1 ps hsep hsplit
  have hne : ∀ t : List Char, (∀ c ∈ t, isSep c = false) → ¬ (x.data = t) := by
    intro t ht heq
    obtain ⟨c, hc, hsepc⟩ := hsep
    rw [heq] at hc
    rw [ht c hc] at hsepc
    exact Bool.false_ne_true hsepc
  have hlt : ∀ q ∈ splitSeps x.data, q.length < x.data.length := fun q hq =>
    length_lt_of_mem_splitPred isSep x.data q hsep hq
  have h0 : p0.length < x.data.length :=
    hlt p0 (by rw [hsplit]; exact List.mem_cons_self _ _)
  have h1 : p1.length < x.data.length :=
    hlt p1 (by rw [hsplit]; exact List.mem_cons_of_mem _ (List.mem_cons_self _ _))
  have e0 : parseMarginFuel x.data.length p0 = parseMarginL p0 :=
    parseMarginFuel_congr p0.length p0 le_rfl _ _ h0 (Nat.lt_succ_self _)
  have e1 : parseMarginFuel x.data.length p1 = parseMarginL p1 :=
    parseMarginFuel_congr p1.length p1 le_rfl _ _ h1 (Nat.lt_succ_self _)
  show parseMarginStep (parseMarginFuel x.data.length) x.data = _
  simp only [parseMarginStep]
  rw [if_neg (hne _ (by decide)), if_neg (hne _ (by decide)), if_neg (hne _ (by decide)),
      if_neg (hne _ (by decide)), if_neg (hne _ (by decide)), if_neg (hne _ (by decide)),
      if_neg (hne _ (by decide)), if_neg (hne _ (by decide)), if_neg (hne _ (by decide)),
      hsplit]
  show (parseMarginFuel x.data.length p0).bind
      (fun a => (parseMarginFuel x.data.length p1).map (fun b => a + b)) = _
  rw [e0, e1]

/-- Witness for C6 on `"3.1/2"` (one separator): three and a half lengths. -/
theorem parse_margin_spec_witness :
    parse_margin "3.1/2" =
      (parseMarginL ['3']).bind (fun a => (parseMarginL "1/2".data).map (fun b => a + b)) :=
  parse_margin_spec.2.2.2.2.2.2.2.2 "3.1/2" ['3'] "1/2".data [] (by decide) (by decide)

unseal Rat.add Rat.mul Rat.inv in
/-- Counterexample for C6 as stated: on `"1.1.1"` the code sums the first two
fields of the full split (1 + 1 = 2), while the claim's reading — the part
before the first separator plus the part after it — would give
`parse_margin "1" + parse_margin "1.1"` = 1 + 2 = 3. -/
theorem parse_margin_multisep :
    parse_margin "1.1.1" = some 2 ∧
    ((parse_margin "1").bind (fun a => (parse_margin "1.1").map (fun b => a + b))) = some 3 := by
  decide

unseal Rat.add Rat.mul Rat.inv in
/-- C7: `parse_lap` returns 0 for the empty string, `"0"`, and every
colon-free input; for `M:SS[.f]` input (split on `:` giving two float
segments) it returns `60 * M + SS.f`; in particular
`parse_lap "1:23.4" = 83.4`. -/
theorem parse_lap_spec :
    parse_lap "" = some 0 ∧
    parse_lap "0" = some 0 ∧
    (∀ x : String, pyContains x ':' = false → parse_lap x = some 0) ∧
    (∀ (x a b : String) (qa qb : ℚ), x ≠ "" → x ≠ "0" → pyContains x ':' = true →
      pySplit x (fun c => c == ':') = [a, b] →
      pyFloat a = some qa → pyFloat b = some qb →
      parse_lap x = some (qa * 60 + qb)) ∧
    parse_lap "1:23.4" = some (417/5) := by
  refine ⟨rfl, rfl, ?_, ?_, by decide⟩
  · intro x hx
    simp [parse_lap, hx]
  · intro x a b qa qb h1 h2 h3 hsplit ha hb
    simp only [parse_lap]
    rw [if_neg (by simp [h1, h2, h3]), hsplit]
    simp [ha, hb]

unseal Rat.add Rat.mul Rat.inv in
/-- Witness for C7's general `M:SS[.f]` clause at `"1:23.4"`. -/
theorem parse_lap_spec_witness :
    parse_lap "1:23.4" = some ((1 : ℚ) * 60 + 117/5) :=
  parse_lap_spec.2.2.2.1 "1:23.4" "1" "23.4" 1 (117/5) (by decide) (by decide) (by decide)
    (by decide) (by decide) (by decide)

/-- C8: a weight cell `480(+4)` yields `weight = 480` and `weight_diff = 4`;
every weight cell containing no parenthesis, and every non-string weight
cell, yields the safe default `(0, 0)`; the function is total, so no
exception can escape (`safe_int` swallows conversion failures). -/
theorem weight_cell_parsing :
    parseWeightCell (some "480(+4)") = (480, 4) ∧
    (∀ s : String, pyContains s '(' = false → parseWeightCell (some s) = (0, 0)) ∧
    parseWeightCell none = (0, 0) := by
  refine ⟨by decide, ?_, rfl⟩
  intro s hs
  simp [parseWeightCell, hs]

/-- Witness for C8's parenthesis-free clause at the real-world unmeasured
marker `計不`. -/
theorem weight_cell_parsing_witness :
    parseWeightCell (some "計不") = (0, 0) :=
  weight_cell_parsing.2.1 "計不" (by decide)

/-- C9: after the cache-refresh step of `_fetch_valid_race_ids`
(`scraper.py:192-196`, which runs whenever a cache exists and
`race_profiles` is non-empty), every identifier in the persisted cache that
is present in `race_profiles` has `fetched = true`, and every cached
identifier absent from `race_profiles` has `fetched = false`.  The
hypothesis `diskCache ≠ some []` keeps the statement inside the model's
faithful range: on an empty cache file the Python code would take
`min`/`max` of an empty column (`NaT`). -/
theorem cache_refresh_invariant (diskCache : Option (List CacheRow))
    (profiles : List (String × Nat)) (discover : Nat → List String)
    (fromDate endDate from_year : Nat)
    (hp : profiles ≠ []) (_hc : diskCache ≠ some []) :
    ∀ row ∈ ((_fetch_valid_race_ids diskCache profiles discover fromDate
        endDate from_year).diskAfter).getD [],
      (row.race_id ∈ profiles.map (fun p => p.1) → row.fetched = true) ∧
      (row.race_id ∉ profiles.map (fun p => p.1) → row.fetched = false) := by
  obtain ⟨c0, h0⟩ := enumInit_fst_isSome diskCache profiles hp
  obtain ⟨c1, h1⟩ := enumDiscover_isSome c0 discover fromDate endDate
  have hpipe : (_fetch_valid_race_ids diskCache profiles discover fromDate
      endDate from_year).diskAfter
      = some (refreshFetched c1 (profiles.map (fun p => p.1))) := by
    simp only [_fetch_valid_race_ids, h0, h1, enumRefresh_of_profiles_ne c1 profiles _ hp]
  intro row hrow
  rw [hpipe] at hrow
  simp only [Option.getD_some] at hrow
  have hf := refreshFetched_spec c1 (profiles.map (fun p => p.1)) row hrow
  constructor
  · intro hmem
    rw [hf]
    exact List.elem_iff.mpr hmem
  · intro hmem
    rw [hf]
    exact Bool.eq_false_iff.mpr (fun hcontr => hmem (List.elem_iff.mp hcontr))

/-- Witness for C9: one cached, already-profiled race comes out of the
refresh with `fetched = true`. -/
theorem cache_refresh_invariant_witness :
    ("201301010101" ∈ [("201301010101", 5)].map (fun p : String × Nat => p.1) →
      (⟨"201301010101", 5, true⟩ : CacheRow).fetched = true) ∧
    ("201301010101" ∉ [("201301010101", 5)].map (fun p : String × Nat => p.1) →
      (⟨"201301010101", 5, true⟩ : CacheRow).fetched = false) :=
  cache_refresh_invariant (some [⟨"201301010101", 5, false⟩]) [("201301010101", 5)]
    (fun _ => []) 5 5 2013 (by decide) (by decide) ⟨"201301010101", 5, true⟩ (by decide)

/-- C10: `Scraper.save` writes a table's parquet file only when the
in-memory table is non-empty — for each of the four tables, an empty
in-memory table leaves the corresponding on-disk file unchanged. -/
theorem save_preserves_empty_tables {α β γ δ : Type}
    (s : StoreTables α β γ δ) (d : DiskFiles α β γ δ) :
    (s.races = [] → (save s d).racesFile = d.racesFile) ∧
    (s.horses = [] → (save s d).horsesFile = d.horsesFile) ∧
    (s.race_profiles = [] → (save s d).race_profilesFile = d.race_profilesFile) ∧
    (s.payouts = [] → (save s d).payoutsFile = d.payoutsFile) := by
  refine ⟨?_, ?_, ?_, ?_⟩ <;> intro h <;> simp [save, h]

/-- Witness for C10 at a fully empty store over a disk with existing data. -/
theorem save_preserves_empty_tables_witness :
    (save (⟨[], [], [], []⟩ : StoreTables Nat Nat Nat Nat)
        ⟨some [1], none, none, some [2]⟩).racesFile = some [1] :=
  (save_preserves_empty_tables ⟨[], [], [], []⟩ ⟨some [1], none, none, some [2]⟩).1 rfl

end Netkeiba
